import Mathlib

/-!
Verification of the data-cleaning engine of the multinational-retail-data-centralisation
repository (`data_cleaning.py`), via a shallow embedding in Lean 4.

Modelling conventions:
* a pandas cell is a `Cell`: a raw string, a number (Python floats are modelled as
  exact rationals), an integer, a boolean, a parsed timestamp, `np.nan` (`Cell.na`)
  or Python `None` (`Cell.pyNone`);
* a dataframe is a `List` of per-entity row structures; purely structural column
  operations (dropping the sparse `lat` column, dropping `Unnamed: 0`, index resets,
  column reordering) are identities on this row model and are noted where they occur;
* Python exceptions are modelled with `Except PyErr`; a function that cannot raise is
  total;
* `df.attr` attribute access to a column is modelled by `dfAttrColumn` over the list of
  column names, so that access to a column that no longer exists raises
  `AttributeError` exactly as pandas does.
-/

deriving instance DecidableEq for Except

namespace MRDC

/-- Python exception kinds that the cleaning code can raise or catch. -/
inductive PyErr where
  | valueError
  | typeError
  | attributeError
  | keyError
  deriving DecidableEq, Repr

/-- A parsed timestamp, as produced by the dateutil parser model. -/
structure Date where
  year : Nat
  month : Nat
  day : Nat
  hour : Nat
  minute : Nat
  second : Nat
  deriving DecidableEq, Repr

/-- Euclid's algorithm with explicit fuel, so that it reduces by rote unfolding
inside the kernel (the library gcd is well-founded and blocks `decide`). -/
def gcdFuel : Nat → Nat → Nat → Nat
  | 0, _, n => n
  | fuel + 1, m, n => if m = 0 then n else gcdFuel fuel (n % m) m

/-- Greatest common divisor; `m + 1` units of fuel always suffice. -/
def natGcd (m n : Nat) : Nat := gcdFuel (m + 1) m n

/-- An exact rational in lowest terms with positive denominator, the model of a
Python float. All values are built through `pyRat`, which canonicalises, so
structural equality coincides with numeric equality. -/
structure PyF where
  n : Int
  d : Nat
  deriving DecidableEq, Repr

/-- Canonicalising constructor: divide by the gcd. -/
def pyRat (n : Int) (d : Nat) : PyF :=
  let g := natGcd n.natAbs d
  if g = 0 then ⟨0, 1⟩ else ⟨n.tdiv (Int.ofNat g), d / g⟩

/-- Multiplication of exact float values. -/
def pyfMul (a b : PyF) : PyF := pyRat (a.n * b.n) (a.d * b.d)

/-- Division of exact float values (divisors in the cleaning code are positive). -/
def pyfDiv (a b : PyF) : PyF :=
  pyRat (a.n * (if b.n < 0 then -Int.ofNat b.d else Int.ofNat b.d)) (a.d * b.n.natAbs)

/-- A single dataframe cell. Python floats are modelled as exact rationals. -/
inductive Cell where
  | str (s : String)
  | num (q : PyF)
  | int (n : Nat)
  | bool (b : Bool)
  | date (d : Date)
  | na
  | pyNone
  deriving DecidableEq, Repr

/-- Cells that pandas `dropna` / `value_counts` treat as missing (`np.nan`, `None`). -/
def cellIsNA : Cell → Bool
  | Cell.na => true
  | Cell.pyNone => true
  | _ => false

/-- Numeric value of a digit character (undefined behaviour on non-digits is 0-based). -/
def digitsToNat (l : List Char) : Nat :=
  List.foldl (fun acc c => acc * 10 + (c.toNat - 48)) 0 l

/-- Two-digit zero-padded decimal rendering, as in `str(datetime)` fields. -/
def pad2 (n : Nat) : List Char :=
  [Nat.digitChar (n / 10 % 10), Nat.digitChar (n % 10)]

/-- Four-digit zero-padded decimal rendering, as in `str(datetime)` years. -/
def pad4 (n : Nat) : List Char :=
  [Nat.digitChar (n / 1000 % 10), Nat.digitChar (n / 100 % 10),
   Nat.digitChar (n / 10 % 10), Nat.digitChar (n % 10)]

/-- Character list of `str(datetime(...))`: `YYYY-MM-DD HH:MM:SS`. -/
def renderDateChars (d : Date) : List Char :=
  pad4 d.year ++ '-' :: (pad2 d.month ++ '-' :: (pad2 d.day ++ ' ' ::
    (pad2 d.hour ++ ':' :: (pad2 d.minute ++ ':' :: pad2 d.second))))

/-- Python `str()` of a datetime value. -/
def renderDate (d : Date) : String :=
  String.mk (renderDateChars d)

/-- Fuel-bounded decimal expansion of a fraction, for the float `repr` model. -/
def renderRatFrac : Nat → Nat → Nat → List Char
  | 0, _, _ => []
  | _ + 1, 0, _ => []
  | fuel + 1, r, den => Nat.digitChar (r * 10 / den) :: renderRatFrac fuel (r * 10 % den) den

/-- Abbreviated model of Python float `repr` for a nonnegative rational. -/
def renderRatNN (q : PyF) : String :=
  let n : Nat := q.n.toNat
  let i : Nat := n / q.d
  let r : Nat := n % q.d
  String.mk ((Nat.toDigits 10 i) ++ '.' ::
    (if r = 0 then ['0'] else renderRatFrac 17 r q.d))

/-- Abbreviated model of Python float `repr`. -/
def renderRat (q : PyF) : String :=
  if q.n < 0 then "-" ++ renderRatNN ⟨-q.n, q.d⟩ else renderRatNN q

/-- Python `str()` applied to a cell value (`str(np.nan) = "nan"`, `str(None) = "None"`). -/
def pyStr : Cell → String
  | Cell.str s => s
  | Cell.num q => renderRat q
  | Cell.int n => String.mk (Nat.toDigits 10 n)
  | Cell.bool b => if b then "True" else "False"
  | Cell.date d => renderDate d
  | Cell.na => "nan"
  | Cell.pyNone => "None"

/-- Separator characters recognised by the date-parser model. -/
def dateSeps : List Char := ['-', ' ', ':']

/-- Split a character list into tokens at any of the given separator characters. -/
def splitTokensOn (seps : List Char) : List Char → List (List Char)
  | [] => [[]]
  | c :: rest =>
    if c ∈ seps then [] :: splitTokensOn seps rest
    else
      match splitTokensOn seps rest with
      | t :: ts => (c :: t) :: ts
      | [] => [[c]]

/-- Numeric value of a token: all characters must be digits and the token nonempty. -/
def tokNat (t : List Char) : Option Nat :=
  if t ≠ [] ∧ t.all Char.isDigit then some (digitsToNat t) else none

/-- Bounds that the date-parser model enforces before accepting a date. -/
def DateValid (d : Date) : Prop :=
  1 ≤ d.year ∧ d.year ≤ 9999 ∧ 1 ≤ d.month ∧ d.month ≤ 12 ∧ 1 ≤ d.day ∧ d.day ≤ 31 ∧
    d.hour < 24 ∧ d.minute < 60 ∧ d.second < 60

instance (d : Date) : Decidable (DateValid d) := by
  unfold DateValid; infer_instance

/-- Range-check and build a date, mirroring the validation the date parser performs. -/
def mkDate (y m d h mi se : Nat) : Option Date :=
  if 1 ≤ y ∧ y ≤ 9999 ∧ 1 ≤ m ∧ m ≤ 12 ∧ 1 ≤ d ∧ d ≤ 31 ∧ h < 24 ∧ mi < 60 ∧ se < 60
  then some ⟨y, m, d, h, mi, se⟩ else none

/-- Modelled from the spec: `dateutil.parser.parse` as the repository uses it
("attempt to interpret it as a calendar date/time under permissive multi-format
parsing"). The model accepts numeric `YYYY-MM-DD` and `YYYY-MM-DD HH:MM:SS` shapes
with range validation and fails on everything else; `day ∈ 1..31` abbreviates
calendar-exact day-of-month validation. -/
def duParseCore (s : String) : Option Date :=
  match splitTokensOn dateSeps s.data with
  | [ty, tm, td] =>
    match tokNat ty, tokNat tm, tokNat td with
    | some y, some m, some d => mkDate y m d 0 0 0
    | _, _, _ => none
  | [ty, tm, td, th, tmi, ts] =>
    match tokNat ty, tokNat tm, tokNat td, tokNat th, tokNat tmi, tokNat ts with
    | some y, some m, some d, some h, some mi, some se => mkDate y m d h mi se
    | _, _, _, _, _, _ => none
  | _ => none

/-- Modelled from the spec: the dateutil parser raises `ValueError` (its `ParserError`
subclass) on unparseable text, which is the failure mode the repository's comments
document ("the rest threw a ValueError"). -/
def duParse (s : String) : Except PyErr Date :=
  match duParseCore s with
  | some d => Except.ok d
  | none => Except.error PyErr.valueError

/-- Lines 383-402: `safe_parse` converts its argument with `str()`, calls the dateutil
parser, and catches `ValueError`, returning `np.nan` in that case; any other exception
would propagate. -/
def safe_parse (x : Cell) : Except PyErr Cell :=
  match duParse (pyStr x) with
  | Except.ok d => Except.ok (Cell.date d)
  | Except.error PyErr.valueError => Except.ok Cell.na
  | Except.error e => Except.error e

/-- Model of Python `float()` on an already whitespace-free string: optional sign,
decimal digits with at most one dot, at least one digit; `inf`/`nan`/exponent
literals are outside the model (unused by the cleaning code paths verified here).
On any other shape Python raises `ValueError` (`none` here). -/
def pyFloatCore (l : List Char) : Option PyF :=
  let core : List Char → Option PyF := fun l' =>
    let intPart := l'.takeWhile (fun c => c ≠ '.')
    let rest := l'.dropWhile (fun c => c ≠ '.')
    match rest with
    | [] =>
      if intPart ≠ [] ∧ intPart.all Char.isDigit
      then some (pyRat (Int.ofNat (digitsToNat intPart)) 1)
      else none
    | _ :: frac =>
      if (intPart ++ frac) ≠ [] ∧ intPart.all Char.isDigit ∧ frac.all Char.isDigit ∧
          frac.all (fun c => c ≠ '.')
      then some (pyRat (Int.ofNat (digitsToNat intPart * 10 ^ frac.length + digitsToNat frac))
                   (10 ^ frac.length))
      else none
  match l with
  | '-' :: r => (core r).map (fun q => ⟨-q.n, q.d⟩)
  | '+' :: r => core r
  | r => core r

/-- Python `float()` raising `ValueError` on failure. -/
def pyFloat (l : List Char) : Except PyErr PyF :=
  match pyFloatCore l with
  | some q => Except.ok q
  | none => Except.error PyErr.valueError

/-- Model of `pd.to_numeric(..., errors='coerce')` on one cell: unconvertible values
become `NaN`; numbers pass through (the int64/float64 dtype split is abstracted
into `ℚ`). -/
def toNumericCell : Cell → Cell
  | Cell.num q => Cell.num q
  | Cell.int n => Cell.int n
  | Cell.bool b => Cell.num (pyRat (if b then 1 else 0) 1)
  | Cell.str s =>
    match pyFloatCore s.data with
    | some q => Cell.num q
    | none => Cell.na
  | _ => Cell.na

/-- Model of `.astype('string')` on one cell: missing values stay missing, everything
else is rendered with `str()`. This cast never raises. -/
def asTypeString : Cell → Cell
  | Cell.na => Cell.na
  | Cell.pyNone => Cell.na
  | Cell.str s => Cell.str s
  | c => Cell.str (pyStr c)

/-- Model of `.astype('int')` on one cell: a nonempty all-digit string converts, an
already-integral value stays, floats truncate, and anything else (including an empty
string or a missing value) raises `ValueError`. Staff counts are nonnegative, so the
integer payload is `Nat`. -/
def asTypeInt : Cell → Except PyErr Cell
  | Cell.str s =>
    if s.data ≠ [] ∧ s.data.all Char.isDigit then Except.ok (Cell.int (digitsToNat s.data))
    else Except.error PyErr.valueError
  | Cell.int n => Except.ok (Cell.int n)
  | Cell.num q => Except.ok (Cell.int (q.n.toNat / q.d))
  | Cell.bool b => Except.ok (Cell.int (if b then 1 else 0))
  | _ => Except.error PyErr.valueError

/-- Model of `column.value_counts()[x]`: `value_counts` excludes missing values from
its index, so looking up `np.nan`/`None`, or a value that does not occur, raises
`KeyError`; otherwise the occurrence count is returned. -/
def vcCount (col : List Cell) (x : Cell) : Except PyErr Nat :=
  if cellIsNA x then Except.error PyErr.keyError
  else if col.count x = 0 then Except.error PyErr.keyError
  else Except.ok (col.count x)

/-- Row-wise `Series.apply` with a callback that may raise: left-to-right, stopping at
the first exception, exactly as pandas `apply` does. -/
def exceptMapM (f : α → Except PyErr β) : List α → Except PyErr (List β)
  | [] => Except.ok []
  | x :: xs =>
    match f x with
    | Except.error e => Except.error e
    | Except.ok y =>
      match exceptMapM f xs with
      | Except.error e => Except.error e
      | Except.ok ys => Except.ok (y :: ys)

/-- Worker for the `str.replace` model: at `skip = 0` scan for the pattern; after a
match, skip the `pat.length - 1` pattern characters that follow the already-consumed
head. Structural recursion on the scanned list keeps this kernel-reducible. -/
def pyReplaceAux (pat rep : List Char) : Nat → List Char → List Char
  | 0, [] => []
  | 0, c :: rest =>
    if List.isPrefixOf pat (c :: rest) ∧ pat ≠ []
    then rep ++ pyReplaceAux pat rep (pat.length - 1) rest
    else c :: pyReplaceAux pat rep 0 rest
  | _ + 1, [] => []
  | skip + 1, _ :: rest => pyReplaceAux pat rep skip rest

/-- Exception-propagating sequencing (the `Except` bind, written as an explicit
match so that proofs and kernel evaluation can take it apart directly). -/
def exceptThen {α β : Type} (x : Except PyErr α) (f : α → Except PyErr β) : Except PyErr β :=
  match x with
  | Except.error e => Except.error e
  | Except.ok a => f a

/-- Model of Python `str.replace(pat, rep)`: left-to-right, non-overlapping
replacement of every occurrence. -/
def pyReplace (pat rep : List Char) (l : List Char) : List Char :=
  pyReplaceAux pat rep 0 l

/-- Python substring test `pat in s` (also the model of an unanchored literal
`re.search`): some suffix of `s` starts with `pat`. -/
def containsSub (pat : List Char) : List Char → Bool
  | [] => List.isPrefixOf pat []
  | c :: rest => List.isPrefixOf pat (c :: rest) || containsSub pat rest

/-- Run an anchored matcher at every suffix, modelling unanchored `re.search`. -/
def searchAny (f : List Char → Bool) : List Char → Bool
  | [] => f []
  | c :: rest => f (c :: rest) || searchAny f rest

/-- Consume exactly `n` characters satisfying `p`, as a fixed-count regex class. -/
def chompClass (p : Char → Bool) : Nat → List Char → Option (List Char)
  | 0, l => some l
  | _ + 1, [] => none
  | n + 1, c :: l => if p c then chompClass p n l else none

/-- Consume one literal character. -/
def chompLit (ch : Char) : List Char → Option (List Char)
  | [] => none
  | c :: l => if c = ch then some l else none

/-- ASCII `[a-zA-Z\d]`, the class the cleaning regexes use for uuid groups. -/
def isAlnumA (c : Char) : Bool := c.isAlpha || c.isDigit

/-- Anchored match of `[a-zA-Z\d]{8}-[a-zA-Z\d]{4}-[a-zA-Z\d]{4}-[a-zA-Z\d]{4}-[a-zA-Z\d]{12}`. -/
def uuidAt (l : List Char) : Bool :=
  (do
    let l ← chompClass isAlnumA 8 l
    let l ← chompLit '-' l
    let l ← chompClass isAlnumA 4 l
    let l ← chompLit '-' l
    let l ← chompClass isAlnumA 4 l
    let l ← chompLit '-' l
    let l ← chompClass isAlnumA 4 l
    let l ← chompLit '-' l
    let _ ← chompClass isAlnumA 12 l
    some ()).isSome

/-- Lines 285 and 368: `re.search` of the grouped alphanumeric uuid pattern. -/
def uuidSearch (l : List Char) : Bool := searchAny uuidAt l

/-- Anchored match of `[a-zA-Z]{1}[\d]{1}-[a-zA-Z\d]+`. -/
def productCodeAt (l : List Char) : Bool :=
  (do
    let l ← chompClass Char.isAlpha 1 l
    let l ← chompClass Char.isDigit 1 l
    let l ← chompLit '-' l
    let _ ← chompClass isAlnumA 1 l
    some ()).isSome

/-- Line 294: `re.search` of the product-code pattern. -/
def productCodeSearch (l : List Char) : Bool := searchAny productCodeAt l

/-- Line 121: `re.search(r'^\d+$', str(x))` — a nonempty all-digit string. -/
def allDigits1 (l : List Char) : Bool := !l.isEmpty && l.all Char.isDigit

/-- Model of pandas `df.attr` column attribute access: if the name is not among the
frame's columns, `AttributeError` is raised. -/
def dfAttrColumn (cols : List String) (name : String) : Except PyErr Unit :=
  if name ∈ cols then Except.ok () else Except.error PyErr.attributeError

/-- Model of the `x.replace(pat, rep)` method call on a cell: only strings have the
`str.replace` method; missing floats and other non-string cells raise
(`AttributeError` for the `np.nan` float case; the exact exception for other
non-string payloads is abstracted to the same constructor). -/
def strReplaceMethod (c : Cell) (pat rep : List Char) : Except PyErr Cell :=
  match c with
  | Cell.str s => Except.ok (Cell.str (String.mk (pyReplace pat rep s.data)))
  | _ => Except.error PyErr.attributeError

/-- Lines 222-235, the no-multiplier arm of `single_conversion`: the ordered
`kg` / `g` / `ml` / `oz` chain over a space-free entry. Returns the kilogram value,
`none` for the `np.nan` fallthrough, and propagates `float()`'s `ValueError`. -/
def weightUnitChain (l : List Char) : Except PyErr (Option PyF) :=
  if containsSub ['k', 'g'] l then do
    let q ← pyFloat (pyReplace ['k', 'g'] [] l)
    pure (some q)
  else if l.contains 'g' then do
    let q ← pyFloat (pyReplace ['g'] [] l)
    pure (some (pyfDiv q (pyRat 1000 1)))
  else if containsSub ['m', 'l'] l then do
    let q ← pyFloat (pyReplace ['m', 'l'] [] l)
    pure (some (pyfDiv q (pyRat 1000 1)))
  else if containsSub ['o', 'z'] l then do
    let q ← pyFloat (pyReplace ['o', 'z'] [] l)
    pure (some (pyfMul q (pyRat 283495 10000000)))
  else
    pure none

/-- Lines 206-235: `single_conversion`. The entry is `str()`-converted and stripped of
spaces; a `'x'` multiplier splits the entry (Python `split('x')` parts are `x`-free,
so the recursive call is exactly the unit chain); `float * np.nan` is `np.nan`. -/
def single_conversion (entry : Cell) : Except PyErr Cell :=
  let l := (pyStr entry).data.filter (fun c => c ≠ ' ')
  if l.contains 'x' then do
    let q1 ← pyFloat (l.takeWhile (fun c => c ≠ 'x'))
    let r ← weightUnitChain (((l.dropWhile (fun c => c ≠ 'x')).drop 1).takeWhile (fun c => c ≠ 'x'))
    pure (match r with
      | some q2 => Cell.num (pyfMul q1 q2)
      | none => Cell.na)
  else do
    let r ← weightUnitChain l
    pure (match r with
      | some q => Cell.num q
      | none => Cell.na)

/-! ## Card cleaner (`clean_card_data`, lines 80-127) -/

/-- A row of the card table: card_number, expiry_date, card_provider,
date_payment_confirmed. -/
structure CardRow where
  card_number : Cell
  expiry_date : Cell
  card_provider : Cell
  date_payment_confirmed : Cell
  deriving DecidableEq, Repr

/-- A card row with a missing value in any column, as seen by `df.dropna()`. -/
def cardHasNA (r : CardRow) : Bool :=
  cellIsNA r.card_number || cellIsNA r.expiry_date || cellIsNA r.card_provider ||
    cellIsNA r.date_payment_confirmed

/-- Line 101: the expiry mask `lambda x: len(x) == 5 and x[2] == '/'`. Python `len`
raises `TypeError` on non-sequence cells (e.g. an `np.nan` float). -/
def expiryMask (c : Cell) : Except PyErr Bool :=
  match c with
  | Cell.str s => Except.ok (s.data.length == 5 && s.data.getD 2 ' ' == '/')
  | _ => Except.error PyErr.typeError

/-- Lines 101-103: blank out expiry dates failing the mask, then cast to string. -/
def cardStage1 (rows : List CardRow) : Except PyErr (List CardRow) :=
  exceptThen (exceptMapM (fun r =>
      exceptThen (expiryMask r.expiry_date) (fun b =>
        Except.ok (if b then r else { r with expiry_date := Cell.na }))) rows)
    (fun a => Except.ok (a.map (fun r => { r with expiry_date := asTypeString r.expiry_date })))

/-- Lines 107-111: blank out providers whose frequency is not above 12, then cast. -/
def cardStage2 (rows : List CardRow) : Except PyErr (List CardRow) :=
  exceptThen (exceptMapM (fun r =>
      exceptThen (vcCount (rows.map (fun r' => r'.card_provider)) r.card_provider) (fun n =>
        Except.ok (if 12 < n then r else { r with card_provider := Cell.na }))) rows)
    (fun a => Except.ok (a.map (fun r => { r with card_provider := asTypeString r.card_provider })))

/-- Line 116: `safe_parse` over `date_payment_confirmed`. -/
def cardStage3 (rows : List CardRow) : Except PyErr (List CardRow) :=
  exceptMapM (fun r =>
    exceptThen (safe_parse r.date_payment_confirmed) (fun c =>
      Except.ok { r with date_payment_confirmed := c })) rows

/-- Lines 120-123: strip `?` from `str(card_number)`, blank out non-all-digit values,
cast to string (a no-op on the string/missing cells present at this point). -/
def cardStage4 (rows : List CardRow) : List CardRow :=
  ((rows.map (fun r =>
      { r with card_number := Cell.str (String.mk (pyReplace ['?'] [] (pyStr r.card_number).data)) })).map
    (fun r => if allDigits1 (pyStr r.card_number).data then r
              else { r with card_number := Cell.na })).map
    (fun r => { r with card_number := asTypeString r.card_number })

/-- Lines 80-127: `clean_card_data`, ending with `df.dropna()`. -/
def clean_card_data (rows : List CardRow) : Except PyErr (List CardRow) :=
  exceptThen (cardStage1 rows) (fun a =>
    exceptThen (cardStage2 a) (fun b =>
      exceptThen (cardStage3 b) (fun c =>
        Except.ok ((cardStage4 c).filter (fun r => !cardHasNA r)))))

/-! ## Store cleaner (`clean_store_data`, lines 129-184) -/

/-- A row of the store table. The always-sparse `lat` column (dropped at line 148),
the index reset and the final column reordering (lines 176-182) are structural
column-level operations that are identities on this row model. -/
structure StoreRow where
  store_code : Cell
  store_type : Cell
  staff_numbers : Cell
  locality : Cell
  address : Cell
  country_code : Cell
  continent : Cell
  longitude : Cell
  latitude : Cell
  opening_date : Cell
  deriving DecidableEq, Repr

/-- Lines 129-184: `clean_store_data`. -/
def clean_store_data (rows : List StoreRow) : Except PyErr (List StoreRow) :=
  exceptThen (exceptMapM (fun r =>
      exceptThen (vcCount (rows.map (fun r' => r'.store_type)) r.store_type) (fun n =>
        Except.ok (if n < 4 ∧ r.store_type ≠ Cell.str "Web Portal"
          then { r with store_type := Cell.na } else r))) rows)
    (fun a =>
      exceptThen (exceptMapM (fun r =>
          exceptThen (safe_parse r.opening_date) (fun v =>
            Except.ok { r with opening_date := v }))
          (((a.filter (fun r => !cellIsNA r.store_type)).map (fun r =>
            { r with staff_numbers :=
                Cell.str (String.mk ((pyStr r.staff_numbers).data.filter Char.isDigit)) }))))
        (fun d =>
          exceptThen (exceptMapM (fun r =>
              exceptThen (strReplaceMethod r.continent ['e', 'e'] []) (fun v =>
                Except.ok { r with continent := v })) d)
            (fun e =>
              exceptMapM (fun r =>
                  exceptThen (asTypeInt r.staff_numbers) (fun v =>
                    Except.ok { r with staff_numbers := v }))
                (((e.map (fun r =>
                    { r with address := asTypeString r.address, locality := asTypeString r.locality,
                             store_code := asTypeString r.store_code,
                             store_type := asTypeString r.store_type,
                             country_code := asTypeString r.country_code,
                             continent := asTypeString r.continent })).map (fun r =>
                    { r with longitude := toNumericCell r.longitude,
                             latitude := toNumericCell r.latitude }))))))

/-! ## Product cleaner (`convert_product_weights` and `clean_products_data`,
lines 186-302) -/

/-- A row of the product table. The `Unnamed: 0` column dropped at line 263 is
structural and outside the row model. The `removed` field keeps its slot after the
line-290 rename; the rename itself is tracked by `productsColumnsAfterRename`. -/
structure ProductRow where
  product_name : Cell
  product_price : Cell
  weight : Cell
  category : Cell
  EAN : Cell
  date_added : Cell
  uuid : Cell
  removed : Cell
  product_code : Cell
  deriving DecidableEq, Repr

/-- A product row with a missing value in any column. -/
def productHasNA (r : ProductRow) : Bool :=
  cellIsNA r.product_name || cellIsNA r.product_price || cellIsNA r.weight ||
    cellIsNA r.category || cellIsNA r.EAN || cellIsNA r.date_added || cellIsNA r.uuid ||
    cellIsNA r.removed || cellIsNA r.product_code

/-- Lines 186-240: `convert_product_weights` — `single_conversion` over the weight
column followed by `pd.to_numeric(..., errors='coerce')`. -/
def convert_product_weights (rows : List ProductRow) : Except PyErr (List ProductRow) :=
  exceptThen (exceptMapM (fun r =>
      exceptThen (single_conversion r.weight) (fun w =>
        Except.ok { r with weight := w })) rows)
    (fun a => Except.ok (a.map (fun r => { r with weight := toNumericCell r.weight })))

/-- The column names of the product frame after the line-290 rename
`removed -> still_available`. -/
def productsColumnsAfterRename : List String :=
  ["product_name", "product_price", "weight", "category", "EAN", "date_added", "uuid",
   "still_available", "product_code"]

/-- Lines 265-277: the pure field rules between the weight conversion and the
date parse — price strip/coerce, category frequency rule, EAN all-digit rule. -/
def productsPriceCatEAN (a : List ProductRow) : List ProductRow :=
  let b := a.map (fun r =>
    { r with product_price :=
        toNumericCell (Cell.str (String.mk (pyReplace ['£'] [] (pyStr r.product_price).data))) })
  let catCol := b.map (fun r => r.category)
  ((b.map (fun r =>
    { r with category :=
        if cellIsNA r.category = false ∧ 1 < catCol.count r.category then r.category
        else Cell.na })).map (fun r =>
    { r with EAN := if (pyStr r.EAN).data.all Char.isDigit then r.EAN else Cell.na }))

/-- Lines 258-295: every field rule of `clean_products_data` up to and including the
product-code mask, in source order. -/
def productsStage1 (rows : List ProductRow) : Except PyErr (List ProductRow) :=
  exceptThen (convert_product_weights rows) (fun a =>
    exceptThen (exceptMapM (fun r =>
        exceptThen (safe_parse r.date_added) (fun v =>
          Except.ok { r with date_added := v }))
        (productsPriceCatEAN a))
      (fun e =>
        Except.ok (((e.map (fun r =>
            if uuidSearch (pyStr r.uuid).data then r else { r with uuid := Cell.na })).map
          (fun r =>
            { r with removed :=
                if r.removed = Cell.str "Removed" then Cell.bool false
                else if r.removed = Cell.str "Still_avaliable" then Cell.bool true
                else Cell.na })).map
          (fun r =>
            if productCodeSearch (pyStr r.product_code).data then r
            else { r with product_code := Cell.na }))))

/-- Lines 258-298: the field rules followed by the row-level `dropna`. -/
def productsAfterDrop (rows : List ProductRow) : Except PyErr (List ProductRow) :=
  exceptThen (productsStage1 rows) (fun a =>
    Except.ok (a.filter (fun r => !productHasNA r)))

/-- Lines 242-302: `clean_products_data`. Line 299 casts columns that still exist;
line 300 then reads `df.removed`, but that column was renamed to `still_available`
at line 290, so pandas raises `AttributeError` before the function can return. -/
def clean_products_data (rows : List ProductRow) : Except PyErr (List ProductRow) :=
  exceptThen (productsAfterDrop rows) (fun a =>
    let b := a.map (fun r =>
      { r with product_name := asTypeString r.product_name, category := asTypeString r.category,
               uuid := asTypeString r.uuid, product_code := asTypeString r.product_code,
               EAN := asTypeString r.EAN })
    exceptThen (dfAttrColumn productsColumnsAfterRename "removed") (fun _ => Except.ok b))

/-! ## Predicates taken from the spec's wording, for refinement comparisons -/

/-- ASCII hexadecimal digit. -/
def isHexDigitA (c : Char) : Bool :=
  c.isDigit || (('a' ≤ c) && (c ≤ 'f')) || (('A' ≤ c) && (c ≤ 'F'))

/-- Stated from the spec's words: the uuid value "matches the canonical 8-4-4-4-12
hexadecimal grouped pattern", i.e. the whole string is hex groups of sizes
8-4-4-4-12 separated by hyphens. -/
def isCanonicalHexUUID (s : String) : Bool :=
  (do
    let l ← chompClass isHexDigitA 8 s.data
    let l ← chompLit '-' l
    let l ← chompClass isHexDigitA 4 l
    let l ← chompLit '-' l
    let l ← chompClass isHexDigitA 4 l
    let l ← chompLit '-' l
    let l ← chompClass isHexDigitA 4 l
    let l ← chompLit '-' l
    let l ← chompClass isHexDigitA 12 l
    if l = [] then some () else none).isSome

/-- Stated from the spec's words: the expiry value "matches `DD/DD` — exactly two
digits, a '/', then two digits". -/
def isDDslashDD (s : String) : Bool :=
  match s.data with
  | [a, b, c, d, e] => a.isDigit && b.isDigit && (c == '/') && d.isDigit && e.isDigit
  | _ => false

/-- An adjacent occurrence of "ee" somewhere in the character list. -/
def hasEE : List Char → Bool
  | a :: b :: r => ((a == 'e') && (b == 'e')) || hasEE (b :: r)
  | _ => false

/-! ## Concrete tables used as test inputs -/

/-- A fully valid card row: Visa, 16-style digits, `DD/DD` expiry, parseable date. -/
def cardRowGood : CardRow :=
  ⟨Cell.str "1234", Cell.str "12/24", Cell.str "Visa", Cell.str "2022-01-01"⟩

/-- The same row after cleaning: the payment date is parsed, the rest unchanged. -/
def cardRowGoodClean : CardRow :=
  ⟨Cell.str "1234", Cell.str "12/24", Cell.str "Visa", Cell.date ⟨2022, 1, 1, 0, 0, 0⟩⟩

/-- A card row whose expiry fails the line-101 mask, so the row is dropped. -/
def cardRowBadExpiry : CardRow :=
  ⟨Cell.str "1234", Cell.str "bad", Cell.str "Visa", Cell.str "2022-01-01"⟩

/-- Fourteen Visa rows, two with a bad expiry: cleaning drops two rows, leaving the
provider with frequency 12, no longer above the `> 12` support threshold. -/
def cardTableA : List CardRow :=
  List.replicate 12 cardRowGood ++ [cardRowBadExpiry, cardRowBadExpiry]

/-- Thirteen fully valid Visa rows: the provider stays above the support threshold
even after cleaning. -/
def cardTableB : List CardRow := List.replicate 13 cardRowGood

/-- The cleaned form of `cardTableB`. -/
def cardTableBClean : List CardRow := List.replicate 13 cardRowGoodClean

/-- A card row whose expiry `"ab/cd"` has length 5 and `'/'` in the middle but no
digits at all. -/
def cardRowAlphaExpiry : CardRow :=
  ⟨Cell.str "123", Cell.str "ab/cd", Cell.str "Visa", Cell.str "2022-01-01"⟩

/-- The alpha-expiry row among twelve valid Visa rows (provider frequency 13). -/
def cardTableC : List CardRow := cardRowAlphaExpiry :: List.replicate 12 cardRowGood

/-- The cleaned form of `cardTableC`: the alpha expiry survives. -/
def cardTableCClean : List CardRow :=
  ⟨Cell.str "123", Cell.str "ab/cd", Cell.str "Visa", Cell.date ⟨2022, 1, 1, 0, 0, 0⟩⟩ ::
    List.replicate 12 cardRowGoodClean

/-- The sparse-text marker the raw store feed uses. -/
def sparseCell : Cell := Cell.str "N/A"

/-- A Web Portal store row with every other field sparse, including staff_numbers. -/
def storeRowWebPortalSparse : StoreRow :=
  ⟨sparseCell, Cell.str "Web Portal", sparseCell, sparseCell, sparseCell, sparseCell,
   sparseCell, sparseCell, sparseCell, sparseCell⟩

/-- A Web Portal store row that is sparse except for a digit-bearing staff count. -/
def storeRowWebPortalStaff : StoreRow :=
  ⟨sparseCell, Cell.str "Web Portal", Cell.str "325", sparseCell, sparseCell, sparseCell,
   sparseCell, sparseCell, sparseCell, sparseCell⟩

/-- An ordinary Kiosk row with valid fields. -/
def storeRowKiosk : StoreRow :=
  ⟨Cell.str "KI-1", Cell.str "Kiosk", Cell.str "5", Cell.str "Town", Cell.str "Addr",
   Cell.str "GB", Cell.str "Europe", Cell.str "1.5", Cell.str "2.5", Cell.str "2020-01-01"⟩

/-- The claim's end-to-end store table: one all-sparse Web Portal row and a Kiosk
type occurring only twice. -/
def storeTableA : List StoreRow := [storeRowWebPortalSparse, storeRowKiosk, storeRowKiosk]

/-- The same store table with a digit-bearing staff count on the Web Portal row. -/
def storeTableB : List StoreRow := [storeRowWebPortalStaff, storeRowKiosk, storeRowKiosk]

/-- The cleaned Web Portal row: staff cast to int, unparseable sparse date and
coordinates missing but not dropped, Kiosk rows gone. -/
def storeRowWebPortalClean : StoreRow :=
  ⟨sparseCell, Cell.str "Web Portal", Cell.int 325, sparseCell, sparseCell, sparseCell,
   sparseCell, Cell.na, Cell.na, Cell.na⟩

/-- A product row that is valid in every field; uuid and removed vary per test. -/
def prodRowWith (u rem : String) : ProductRow :=
  ⟨Cell.str "p", Cell.str "£1.5", Cell.str "1kg", Cell.str "cat", Cell.str "123",
   Cell.str "2022-01-01", Cell.str u, Cell.str rem, Cell.str "a1-b"⟩

/-- The cleaned-field form of `prodRowWith` at the `productsAfterDrop` stage. -/
def prodRowCleanWith (u : String) (b : Bool) : ProductRow :=
  ⟨Cell.str "p", Cell.num (pyRat 3 2), Cell.num (pyRat 1 1), Cell.str "cat", Cell.str "123",
   Cell.date ⟨2022, 1, 1, 0, 0, 0⟩, Cell.str u, Cell.bool b, Cell.str "a1-b"⟩

/-- The canonical hexadecimal uuid test vector from the spec. -/
def uuidVec : String := "a1b2c3d4-e5f6-7890-abcd-ef1234567890"

/-- The same vector one hex digit short in the last group. -/
def uuidVecShort : String := "a1b2c3d4-e5f6-7890-abcd-ef123456789"

/-- An 8-4-4-4-12 grouped value made of `z` characters: alphanumeric, not hex. -/
def uuidVecZ : String := "zzzzzzzz-zzzz-zzzz-zzzz-zzzzzzzzzzzz"

/-- Product table with the three `removed` literals: `Removed`, `Still_avaliable`,
and an unexpected value. -/
def prodTableA : List ProductRow :=
  [prodRowWith uuidVec "Removed", prodRowWith uuidVec "Still_avaliable",
   prodRowWith uuidVec "weird"]

/-- The first two rows of `prodTableA` after the field rules and the row drop. -/
def prodTableADropped : List ProductRow :=
  [prodRowCleanWith uuidVec false, prodRowCleanWith uuidVec true]

/-- A minimal valid product table. -/
def prodTableB : List ProductRow :=
  [prodRowWith uuidVec "Removed", prodRowWith uuidVec "Removed"]

/-- Product table whose first row carries the all-`z` alphanumeric uuid. -/
def prodTableC : List ProductRow :=
  [prodRowWith uuidVecZ "Removed", prodRowWith uuidVec "Removed"]

/-- The rows of `prodTableC` surviving the drop stage: both, including the non-hex
uuid. -/
def prodTableCDropped : List ProductRow :=
  [prodRowCleanWith uuidVecZ false, prodRowCleanWith uuidVec false]

/-- Product table whose first row carries the one-digit-short uuid. -/
def prodTableD : List ProductRow :=
  [prodRowWith uuidVecShort "Removed", prodRowWith uuidVec "Removed"]

/-- The shape of every row that survives `clean_card_data`: a 5-character expiry
with `'/'` in the middle, a string provider, a validly parsed payment date, and a
nonempty all-digit card number. -/
def CardClean (r : CardRow) : Prop :=
  (∃ s, r.expiry_date = Cell.str s ∧ s.data.length = 5 ∧ s.data.getD 2 ' ' = '/') ∧
    (∃ p, r.card_provider = Cell.str p) ∧
    (∃ d, r.date_payment_confirmed = Cell.date d ∧ DateValid d) ∧
    (∃ s, r.card_number = Cell.str s ∧ s.data ≠ [] ∧ s.data.all Char.isDigit = true)

/-! ## Helper lemmas -/

theorem exceptThen_ok {α β : Type} {x : Except PyErr α} {f : α → Except PyErr β}
    {b : β} (h : exceptThen x f = Except.ok b) : ∃ a, x = Except.ok a ∧ f a = Except.ok b := by
  cases hx : x with
  | error e => rw [hx] at h; exact absurd h (by simp [exceptThen])
  | ok a => rw [hx] at h; exact ⟨a, rfl, h⟩

theorem asTypeString_shape (c : Cell) :
    asTypeString c = Cell.na ∨ ∃ s, asTypeString c = Cell.str s := by
  cases c <;> simp [asTypeString]

theorem isEmpty_false_of_ne_nil {l : List Char} (h : l ≠ []) : l.isEmpty = false := by
  cases l with
  | nil => exact absurd rfl h
  | cons c r => rfl

theorem exceptMapM_ok_mem {α β : Type} {f : α → Except PyErr β} :
    ∀ {l : List α} {l' : List β}, exceptMapM f l = Except.ok l' →
      ∀ y ∈ l', ∃ x ∈ l, f x = Except.ok y := by
  intro l
  induction l with
  | nil =>
    intro l' h y hy
    simp [exceptMapM] at h
    subst h
    simp at hy
  | cons x xs ih =>
    intro l' h y hy
    simp only [exceptMapM] at h
    cases hfx : f x with
    | error e => rw [hfx] at h; simp at h
    | ok b =>
      rw [hfx] at h
      cases hrest : exceptMapM f xs with
      | error e => rw [hrest] at h; simp at h
      | ok bs =>
        rw [hrest] at h
        simp only [Except.ok.injEq] at h
        subst h
        rcases List.mem_cons.mp hy with hy | hy
        · exact ⟨x, List.mem_cons_self x xs, by rw [hfx, hy]⟩
        · obtain ⟨x', hx', hfx'⟩ := ih hrest y hy
          exact ⟨x', List.mem_cons_of_mem x hx', hfx'⟩

theorem exceptMapM_congr {α : Type} {f : α → Except PyErr α} :
    ∀ {l : List α}, (∀ x ∈ l, f x = Except.ok x) → exceptMapM f l = Except.ok l := by
  intro l
  induction l with
  | nil => intro _; rfl
  | cons x xs ih =>
    intro h
    simp only [exceptMapM]
    rw [h x (List.mem_cons_self x xs), ih (fun y hy => h y (List.mem_cons_of_mem x hy))]

theorem map_congr_ident {α : Type} {f : α → α} :
    ∀ {l : List α}, (∀ x ∈ l, f x = x) → l.map f = l := by
  intro l
  induction l with
  | nil => intro _; rfl
  | cons x xs ih =>
    intro h
    simp only [List.map_cons]
    rw [h x (List.mem_cons_self x xs), ih (fun y hy => h y (List.mem_cons_of_mem x hy))]

theorem filter_congr_true {α : Type} {p : α → Bool} :
    ∀ {l : List α}, (∀ x ∈ l, p x = true) → l.filter p = l := by
  intro l
  induction l with
  | nil => intro _; rfl
  | cons x xs ih =>
    intro h
    simp only [List.filter_cons, h x (List.mem_cons_self x xs), if_pos]
    rw [ih (fun y hy => h y (List.mem_cons_of_mem x hy))]

theorem pyReplace_no_occurrence {pat rep : List Char} :
    ∀ {l : List Char}, containsSub pat l = false → pyReplace pat rep l = l := by
  intro l
  induction l with
  | nil => intro _; rfl
  | cons c rest ih =>
    intro h
    simp only [containsSub, Bool.or_eq_false_iff] at h
    have hx := ih h.2
    simp only [pyReplace] at hx
    simp only [pyReplace, pyReplaceAux, h.1]
    simp [hx]

theorem all_digit_no_question {l : List Char} (h : l.all Char.isDigit = true) :
    containsSub ['?'] l = false := by
  induction l with
  | nil => rfl
  | cons c rest ih =>
    simp only [List.all_cons, Bool.and_eq_true] at h
    have hc : c ≠ '?' := by
      intro hc; subst hc; simp [Char.isDigit] at h
    simp only [containsSub, List.isPrefixOf, Bool.or_eq_false_iff]
    refine ⟨?_, ih h.2⟩
    simp [beq_iff_eq]
    intro hq
    exact absurd hq.symm hc

theorem removeEE_no_ee (l : List Char) :
    hasEE (pyReplaceAux ['e', 'e'] [] 0 l) = false := by
  suffices H : ∀ n, ∀ l : List Char, l.length ≤ n →
      hasEE (pyReplaceAux ['e', 'e'] [] 0 l) = false from H l.length l le_rfl
  intro n
  induction n with
  | zero =>
    intro l hl
    have : l = [] := List.eq_nil_of_length_eq_zero (Nat.le_zero.mp hl)
    subst this
    rfl
  | succ n ih =>
    intro l hl
    match l with
    | [] => rfl
    | c :: rest =>
      by_cases hpre : List.isPrefixOf ['e', 'e'] (c :: rest) = true
      · match rest with
        | [] => simp [List.isPrefixOf] at hpre
        | d :: r =>
          simp only [List.isPrefixOf, Bool.and_eq_true, beq_iff_eq] at hpre
          obtain ⟨hc, hd, -⟩ := hpre
          subst hc
          subst hd
          have hstep : pyReplaceAux ['e', 'e'] [] 0 ('e' :: 'e' :: r) =
              pyReplaceAux ['e', 'e'] [] 0 r := by
            simp [pyReplaceAux, List.isPrefixOf]
          rw [hstep]
          apply ih r
          simp only [List.length_cons] at hl
          omega
      · have heq : pyReplaceAux ['e', 'e'] [] 0 (c :: rest) =
            c :: pyReplaceAux ['e', 'e'] [] 0 rest := by
          simp only [pyReplaceAux, hpre, false_and, if_false]
          simp
        rw [heq]
        have hrest : hasEE (pyReplaceAux ['e', 'e'] [] 0 rest) = false := by
          apply ih rest
          simp only [List.length_cons] at hl
          omega
        cases hout : pyReplaceAux ['e', 'e'] [] 0 rest with
        | nil => rfl
        | cons o1 os =>
          rw [hout] at hrest
          simp only [hasEE, hrest, Bool.or_false, Bool.and_eq_false_iff]
          by_cases hc : c = 'e'
          · subst hc
            right
            match rest with
            | [] => simp [pyReplaceAux] at hout
            | d :: r =>
              have hd : d ≠ 'e' := by
                intro hde
                subst hde
                simp [List.isPrefixOf] at hpre
              have hstep : pyReplaceAux ['e', 'e'] [] 0 (d :: r) =
                  d :: pyReplaceAux ['e', 'e'] [] 0 r := by
                have : List.isPrefixOf ['e', 'e'] (d :: r) = false := by
                  simp only [List.isPrefixOf, Bool.and_eq_false_iff]
                  left
                  simp [beq_iff_eq]
                  intro hq
                  exact absurd hq.symm hd
                simp only [pyReplaceAux, this, false_and, if_false]
                simp
              rw [hstep] at hout
              injection hout with h1 _
              subst h1
              simp [beq_iff_eq]
              intro hq
              exact absurd hq hd
          · left
            simp [beq_iff_eq, hc]

theorem digitChar_isDigit {d : Nat} (h : d < 10) : (Nat.digitChar d).isDigit = true := by
  interval_cases d <;> decide

theorem digitChar_toNat {d : Nat} (h : d < 10) : (Nat.digitChar d).toNat = 48 + d := by
  interval_cases d <;> decide

theorem digitChar_not_sep {d : Nat} (h : d < 10) : Nat.digitChar d ∉ dateSeps := by
  interval_cases d <;> decide

theorem pad2_sepfree (n : Nat) : ∀ c ∈ pad2 n, c ∉ dateSeps := by
  intro c hc
  simp only [pad2, List.mem_cons, List.not_mem_nil, or_false] at hc
  rcases hc with rfl | rfl
  · exact digitChar_not_sep (Nat.mod_lt _ (by omega))
  · exact digitChar_not_sep (Nat.mod_lt _ (by omega))

theorem pad4_sepfree (n : Nat) : ∀ c ∈ pad4 n, c ∉ dateSeps := by
  intro c hc
  simp only [pad4, List.mem_cons, List.not_mem_nil, or_false] at hc
  rcases hc with rfl | rfl | rfl | rfl <;> exact digitChar_not_sep (Nat.mod_lt _ (by omega))

theorem tokNat_pad2 {n : Nat} (h : n < 100) : tokNat (pad2 n) = some n := by
  have h1 : n / 10 % 10 < 10 := Nat.mod_lt _ (by omega)
  have h2 : n % 10 < 10 := Nat.mod_lt _ (by omega)
  simp only [tokNat, pad2, List.all_cons, List.all_nil,
    digitChar_isDigit h1, digitChar_isDigit h2, Bool.and_true, Bool.and_self,
    digitsToNat, List.foldl]
  rw [if_pos (by simp)]
  rw [digitChar_toNat h1, digitChar_toNat h2]
  congr 1
  omega

theorem tokNat_pad4 {n : Nat} (h : n < 10000) : tokNat (pad4 n) = some n := by
  have h1 : n / 1000 % 10 < 10 := Nat.mod_lt _ (by omega)
  have h2 : n / 100 % 10 < 10 := Nat.mod_lt _ (by omega)
  have h3 : n / 10 % 10 < 10 := Nat.mod_lt _ (by omega)
  have h4 : n % 10 < 10 := Nat.mod_lt _ (by omega)
  simp only [tokNat, pad4, List.all_cons, List.all_nil,
    digitChar_isDigit h1, digitChar_isDigit h2, digitChar_isDigit h3, digitChar_isDigit h4,
    Bool.and_true, Bool.and_self, digitsToNat, List.foldl]
  rw [if_pos (by simp)]
  rw [digitChar_toNat h1, digitChar_toNat h2, digitChar_toNat h3, digitChar_toNat h4]
  congr 1
  omega

theorem splitTokensOn_sepfree {seps : List Char} :
    ∀ {l : List Char}, (∀ c ∈ l, c ∉ seps) → splitTokensOn seps l = [l] := by
  intro l
  induction l with
  | nil => intro _; rfl
  | cons c rest ih =>
    intro h
    have hc : c ∉ seps := h c (List.mem_cons_self c rest)
    simp only [splitTokensOn, if_neg hc]
    rw [ih (fun x hx => h x (List.mem_cons_of_mem c hx))]

theorem splitTokensOn_append {seps : List Char} {sep : Char} (hsep : sep ∈ seps) :
    ∀ {t rest : List Char}, (∀ c ∈ t, c ∉ seps) →
      splitTokensOn seps (t ++ sep :: rest) = t :: splitTokensOn seps rest := by
  intro t
  induction t with
  | nil =>
    intro rest _
    simp [splitTokensOn, hsep]
  | cons c t' ih =>
    intro rest h
    have hc : c ∉ seps := h c (List.mem_cons_self c t')
    simp only [List.cons_append, splitTokensOn, if_neg hc, List.append_eq]
    rw [ih (fun x hx => h x (List.mem_cons_of_mem c hx))]

theorem duParseCore_render {d : Date} (h : DateValid d) : duParseCore (renderDate d) = some d := by
  obtain ⟨hy1, hy2, hm1, hm2, hd1, hd2, hh, hmi, hs⟩ := h
  have hsplit : splitTokensOn dateSeps (renderDateChars d) =
      [pad4 d.year, pad2 d.month, pad2 d.day, pad2 d.hour, pad2 d.minute, pad2 d.second] := by
    unfold renderDateChars
    rw [splitTokensOn_append (by decide) (pad4_sepfree _),
      splitTokensOn_append (by decide) (pad2_sepfree _),
      splitTokensOn_append (by decide) (pad2_sepfree _),
      splitTokensOn_append (by decide) (pad2_sepfree _),
      splitTokensOn_append (by decide) (pad2_sepfree _),
      splitTokensOn_sepfree (pad2_sepfree _)]
  show duParseCore (String.mk (renderDateChars d)) = some d
  unfold duParseCore
  rw [show (String.mk (renderDateChars d)).data = renderDateChars d from rfl, hsplit]
  simp only [tokNat_pad4 (show d.year < 10000 by omega), tokNat_pad2 (show d.month < 100 by omega),
    tokNat_pad2 (show d.day < 100 by omega), tokNat_pad2 (show d.hour < 100 by omega),
    tokNat_pad2 (show d.minute < 100 by omega), tokNat_pad2 (show d.second < 100 by omega)]
  unfold mkDate
  rw [if_pos (by omega)]

theorem mkDate_valid {y m d h mi se : Nat} {dt : Date}
    (hk : mkDate y m d h mi se = some dt) : DateValid dt := by
  unfold mkDate at hk
  split at hk
  · rename_i hcond
    injection hk with h'
    subst h'
    exact hcond
  · exact absurd hk (by simp)

theorem duParseCore_valid {s : String} {d : Date} (h : duParseCore s = some d) : DateValid d := by
  unfold duParseCore at h
  split at h
  · split at h
    · exact mkDate_valid h
    · exact absurd h (by simp)
  · split at h
    · exact mkDate_valid h
    · exact absurd h (by simp)
  · exact absurd h (by simp)

theorem safe_parse_date_roundtrip {d : Date} (h : DateValid d) :
    safe_parse (Cell.date d) = Except.ok (Cell.date d) := by
  simp [safe_parse, duParse, pyStr, duParseCore_render h]

theorem safe_parse_ok_cases {x c : Cell} (h : safe_parse x = Except.ok c) :
    c = Cell.na ∨ ∃ d, c = Cell.date d ∧ DateValid d := by
  unfold safe_parse duParse at h
  cases hd : duParseCore (pyStr x) with
  | none => rw [hd] at h; simp at h; exact Or.inl h.symm
  | some d =>
    rw [hd] at h
    simp at h
    exact Or.inr ⟨d, h.symm, duParseCore_valid hd⟩

theorem safe_parse_total (x : Cell) : ∃ c, safe_parse x = Except.ok c := by
  unfold safe_parse duParse
  cases hd : duParseCore (pyStr x) with
  | none => exact ⟨Cell.na, rfl⟩
  | some d => exact ⟨Cell.date d, rfl⟩

theorem card_f1_inv {r z : CardRow}
    (h : exceptThen (expiryMask r.expiry_date) (fun b =>
      Except.ok (if b then r else { r with expiry_date := Cell.na })) = Except.ok z) :
    (z.expiry_date = Cell.na ∨
      ∃ s, z.expiry_date = Cell.str s ∧ s.data.length = 5 ∧ s.data.getD 2 ' ' = '/') ∧
      z.card_number = r.card_number ∧ z.card_provider = r.card_provider ∧
      z.date_payment_confirmed = r.date_payment_confirmed := by
  obtain ⟨b, hb, hz⟩ := exceptThen_ok h
  simp only [Except.ok.injEq] at hz
  cases hxc : r.expiry_date
  case str s =>
    rw [hxc] at hb
    simp only [expiryMask, Except.ok.injEq] at hb
    cases b with
    | false =>
      simp at hz
      subst hz
      exact ⟨Or.inl rfl, rfl, rfl, rfl⟩
    | true =>
      simp at hz
      subst hz
      simp only [Bool.and_eq_true, beq_iff_eq] at hb
      exact ⟨Or.inr ⟨s, hxc, hb.1, hb.2⟩, rfl, rfl, rfl⟩
  all_goals (rw [hxc] at hb; simp [expiryMask] at hb)

theorem cardStage1_ok_mem {rows a : List CardRow} (h : cardStage1 rows = Except.ok a) :
    ∀ y ∈ a, y.expiry_date = Cell.na ∨
      ∃ s, y.expiry_date = Cell.str s ∧ s.data.length = 5 ∧ s.data.getD 2 ' ' = '/' := by
  intro y hy
  unfold cardStage1 at h
  obtain ⟨a', ha', hmap⟩ := exceptThen_ok h
  simp only [Except.ok.injEq] at hmap
  subst hmap
  obtain ⟨z, hz, hzy⟩ := List.mem_map.mp hy
  obtain ⟨x, _, hfx⟩ := exceptMapM_ok_mem ha' z hz
  have hinv := (card_f1_inv hfx).1
  subst hzy
  rcases hinv with hna | ⟨s, hs, h5, hsl⟩
  · left
    show asTypeString z.expiry_date = Cell.na
    rw [hna]
    rfl
  · right
    refine ⟨s, ?_, h5, hsl⟩
    show asTypeString z.expiry_date = Cell.str s
    rw [hs]
    rfl

theorem cardStage2_ok_mem {rows a : List CardRow} (h : cardStage2 rows = Except.ok a) :
    ∀ y ∈ a, ∃ x ∈ rows, y.expiry_date = x.expiry_date ∧ y.card_number = x.card_number ∧
      y.date_payment_confirmed = x.date_payment_confirmed ∧
      (y.card_provider = Cell.na ∨ ∃ p, y.card_provider = Cell.str p) := by
  intro y hy
  unfold cardStage2 at h
  obtain ⟨a', ha', hmap⟩ := exceptThen_ok h
  simp only [Except.ok.injEq] at hmap
  subst hmap
  obtain ⟨z, hz, hzy⟩ := List.mem_map.mp hy
  obtain ⟨x, hx, hfx⟩ := exceptMapM_ok_mem ha' z hz
  obtain ⟨n, -, hzn⟩ := exceptThen_ok hfx
  simp only [Except.ok.injEq] at hzn
  refine ⟨x, hx, ?_⟩
  subst hzy
  by_cases hn : 12 < n
  · rw [if_pos hn] at hzn
    subst hzn
    exact ⟨rfl, rfl, rfl, asTypeString_shape x.card_provider⟩
  · rw [if_neg hn] at hzn
    subst hzn
    exact ⟨rfl, rfl, rfl, asTypeString_shape Cell.na⟩

theorem cardStage3_ok_mem {rows a : List CardRow} (h : cardStage3 rows = Except.ok a) :
    ∀ y ∈ a, ∃ x ∈ rows, y.expiry_date = x.expiry_date ∧ y.card_number = x.card_number ∧
      y.card_provider = x.card_provider ∧
      (y.date_payment_confirmed = Cell.na ∨
        ∃ d, y.date_payment_confirmed = Cell.date d ∧ DateValid d) := by
  intro y hy
  unfold cardStage3 at h
  obtain ⟨x, hx, hfx⟩ := exceptMapM_ok_mem h y hy
  obtain ⟨c, hc, hyc⟩ := exceptThen_ok hfx
  simp only [Except.ok.injEq] at hyc
  subst hyc
  exact ⟨x, hx, rfl, rfl, rfl, by
    rcases safe_parse_ok_cases hc with h1 | ⟨d, h1, h2⟩
    · exact Or.inl (by rw [h1])
    · exact Or.inr ⟨d, by rw [h1], h2⟩⟩

theorem cardStage4_mem {rows : List CardRow} :
    ∀ y ∈ cardStage4 rows, ∃ x ∈ rows,
      y.expiry_date = x.expiry_date ∧ y.card_provider = x.card_provider ∧
      y.date_payment_confirmed = x.date_payment_confirmed ∧
      (y.card_number = Cell.na ∨
        ∃ s, y.card_number = Cell.str s ∧ s.data ≠ [] ∧ s.data.all Char.isDigit = true) := by
  intro y hy
  unfold cardStage4 at hy
  obtain ⟨z2, hz2, hzy⟩ := List.mem_map.mp hy
  obtain ⟨z1, hz1, hz12⟩ := List.mem_map.mp hz2
  obtain ⟨x, hx, hz01⟩ := List.mem_map.mp hz1
  refine ⟨x, hx, ?_⟩
  subst hzy
  by_cases hd : allDigits1 (pyStr z1.card_number).data = true
  · rw [if_pos hd] at hz12
    subst hz12
    subst hz01
    simp only [allDigits1, Bool.and_eq_true, Bool.not_eq_true'] at hd
    refine ⟨rfl, rfl, rfl, Or.inr ⟨String.mk (pyReplace ['?'] [] (pyStr x.card_number).data),
      rfl, ?_, ?_⟩⟩
    · intro hnil
      have : (String.mk (pyReplace ['?'] [] (pyStr x.card_number).data)).data = [] := by
        rw [hnil]
      rw [show (String.mk (pyReplace ['?'] [] (pyStr x.card_number).data)).data =
        pyReplace ['?'] [] (pyStr x.card_number).data from rfl] at this
      rw [show pyStr (Cell.str (String.mk (pyReplace ['?'] [] (pyStr x.card_number).data))) =
        String.mk (pyReplace ['?'] [] (pyStr x.card_number).data) from rfl] at hd
      rw [show (String.mk (pyReplace ['?'] [] (pyStr x.card_number).data)).data =
        pyReplace ['?'] [] (pyStr x.card_number).data from rfl] at hd
      rw [this] at hd
      simp [List.isEmpty] at hd
    · exact hd.2
  · rw [if_neg hd] at hz12
    subst hz12
    subst hz01
    exact ⟨rfl, rfl, rfl, Or.inl rfl⟩

theorem card_output_clean {T L : List CardRow} (h : clean_card_data T = Except.ok L) :
    ∀ r ∈ L, CardClean r := by
  intro r hr
  unfold clean_card_data at h
  obtain ⟨a, ha, h⟩ := exceptThen_ok h
  obtain ⟨b, hb, h⟩ := exceptThen_ok h
  obtain ⟨c, hc, h⟩ := exceptThen_ok h
  simp only [Except.ok.injEq] at h
  subst h
  obtain ⟨hr4, hna⟩ := List.mem_filter.mp hr
  have hnaB : cardHasNA r = false := by
    simp only [Bool.not_eq_true'] at hna
    exact hna
  obtain ⟨x3, hx3, e1, e2, e3, hcard⟩ := cardStage4_mem r hr4
  obtain ⟨x2, hx2, f1, f2, f3, hdate⟩ := cardStage3_ok_mem hc x3 hx3
  obtain ⟨x1, hx1, g1, g2, g3, hprov⟩ := cardStage2_ok_mem hb x2 hx2
  have hexp := cardStage1_ok_mem ha x1 hx1
  refine ⟨?_, ?_, ?_, ?_⟩
  · have heq : r.expiry_date = x1.expiry_date := by rw [e1, f1, g1]
    rcases hexp with hh | ⟨s, hs, h5, hsl⟩
    · exfalso
      apply absurd hnaB
      simp [cardHasNA, heq, hh, cellIsNA]
    · exact ⟨s, by rw [heq, hs], h5, hsl⟩
  · have heq : r.card_provider = x2.card_provider := by rw [e2, f3]
    rcases hprov with hh | ⟨p, hp⟩
    · exfalso
      apply absurd hnaB
      simp [cardHasNA, heq, hh, cellIsNA]
    · exact ⟨p, by rw [heq, hp]⟩
  · rcases hdate with hh | ⟨d, hd, hdv⟩
    · exfalso
      apply absurd hnaB
      simp [cardHasNA, e3, hh, cellIsNA]
    · exact ⟨d, by rw [e3, hd], hdv⟩
  · rcases hcard with hh | ⟨s, hs, hne, hdig⟩
    · exfalso
      apply absurd hnaB
      simp [cardHasNA, hh, cellIsNA]
    · exact ⟨s, hs, hne, hdig⟩

theorem clean_card_data_fixed {L : List CardRow} (hc : ∀ r ∈ L, CardClean r)
    (hfreq : ∀ r ∈ L, 12 < (L.map (fun r' => r'.card_provider)).count r.card_provider) :
    clean_card_data L = Except.ok L := by
  have hs1 : cardStage1 L = Except.ok L := by
    unfold cardStage1
    have hmm : exceptMapM (fun r =>
        exceptThen (expiryMask r.expiry_date) (fun b =>
          Except.ok (if b then r else { r with expiry_date := Cell.na }))) L = Except.ok L := by
      apply exceptMapM_congr
      intro r hr
      obtain ⟨⟨s, hs, h5, hsl⟩, -, -, -⟩ := hc r hr
      have hbool : (s.data.length == 5 && s.data.getD 2 ' ' == '/') = true := by
        rw [h5, hsl]
        rfl
      rw [hs]
      simp only [expiryMask, exceptThen]
      rw [hbool]
      simp
    rw [hmm]
    simp only [exceptThen]
    have hmap : L.map (fun r => { r with expiry_date := asTypeString r.expiry_date }) = L := by
      apply map_congr_ident
      intro r hr
      obtain ⟨⟨s, hs, -, -⟩, -, -, -⟩ := hc r hr
      have hcast : asTypeString r.expiry_date = r.expiry_date := by rw [hs]; rfl
      rw [hcast]
    rw [hmap]
  have hs2 : cardStage2 L = Except.ok L := by
    unfold cardStage2
    have hmm : exceptMapM (fun r =>
        exceptThen (vcCount (L.map (fun r' => r'.card_provider)) r.card_provider) (fun n =>
          Except.ok (if 12 < n then r else { r with card_provider := Cell.na }))) L =
        Except.ok L := by
      apply exceptMapM_congr
      intro r hr
      obtain ⟨-, ⟨p, hp⟩, -, -⟩ := hc r hr
      have hcnt : (L.map (fun r' => r'.card_provider)).count r.card_provider ≠ 0 := by
        rw [Ne, List.count_eq_zero]
        intro hnot
        exact hnot (List.mem_map_of_mem _ hr)
      have hcNA : cellIsNA r.card_provider = false := by rw [hp]; rfl
      simp only [vcCount, hcNA, Bool.false_eq_true, if_false, if_neg hcnt, exceptThen,
        if_pos (hfreq r hr)]
    rw [hmm]
    simp only [exceptThen]
    have hmap : L.map (fun r => { r with card_provider := asTypeString r.card_provider }) = L := by
      apply map_congr_ident
      intro r hr
      obtain ⟨-, ⟨p, hp⟩, -, -⟩ := hc r hr
      have hcast : asTypeString r.card_provider = r.card_provider := by rw [hp]; rfl
      rw [hcast]
    rw [hmap]
  have hs3 : cardStage3 L = Except.ok L := by
    unfold cardStage3
    apply exceptMapM_congr
    intro r hr
    obtain ⟨-, -, ⟨d, hd, hdv⟩, -⟩ := hc r hr
    rw [hd, safe_parse_date_roundtrip hdv]
    simp only [exceptThen]
    rw [← hd]
  have hs4 : cardStage4 L = L := by
    unfold cardStage4
    have hmap1 : L.map (fun r =>
        { r with card_number :=
            Cell.str (String.mk (pyReplace ['?'] [] (pyStr r.card_number).data)) }) = L := by
      apply map_congr_ident
      intro r hr
      obtain ⟨-, -, -, ⟨s, hs, hne, hdig⟩⟩ := hc r hr
      have hcast : Cell.str (String.mk (pyReplace ['?'] [] (pyStr r.card_number).data)) =
          r.card_number := by
        rw [hs]
        show Cell.str (String.mk (pyReplace ['?'] [] s.data)) = Cell.str s
        rw [pyReplace_no_occurrence (all_digit_no_question hdig)]
      rw [hcast]
    rw [hmap1]
    have hmap2 : L.map (fun r => if allDigits1 (pyStr r.card_number).data then r
        else { r with card_number := Cell.na }) = L := by
      apply map_congr_ident
      intro r hr
      obtain ⟨-, -, -, ⟨s, hs, hne, hdig⟩⟩ := hc r hr
      rw [hs]
      show (if allDigits1 s.data then r else { r with card_number := Cell.na }) = r
      simp [allDigits1, isEmpty_false_of_ne_nil hne, hdig]
    rw [hmap2]
    apply map_congr_ident
    intro r hr
    obtain ⟨-, -, -, ⟨s, hs, -, -⟩⟩ := hc r hr
    have hcast : asTypeString r.card_number = r.card_number := by rw [hs]; rfl
    rw [hcast]
  have hfil : (cardStage4 L).filter (fun r => !cardHasNA r) = L := by
    rw [hs4]
    apply filter_congr_true
    intro r hr
    obtain ⟨⟨s, hs, -, -⟩, ⟨p, hp⟩, ⟨d, hd, -⟩, ⟨t, ht, -, -⟩⟩ := hc r hr
    simp [cardHasNA, hs, hp, hd, ht, cellIsNA]
  unfold clean_card_data
  rw [hs1]
  simp only [exceptThen]
  rw [hs2]
  simp only [exceptThen]
  rw [hs3]
  simp only [exceptThen]
  rw [hfil]

theorem productsStage1_ok_mem {rows g : List ProductRow} (h : productsStage1 rows = Except.ok g) :
    ∀ y ∈ g, y.uuid = Cell.na ∨ uuidSearch (pyStr y.uuid).data = true := by
  intro y hy
  unfold productsStage1 at h
  obtain ⟨a, ha, h⟩ := exceptThen_ok h
  obtain ⟨e, he, h⟩ := exceptThen_ok h
  simp only [Except.ok.injEq] at h
  subst h
  obtain ⟨z2, hz2, hzy⟩ := List.mem_map.mp hy
  obtain ⟨z1, hz1, hz12⟩ := List.mem_map.mp hz2
  obtain ⟨z0, hz0, hz01⟩ := List.mem_map.mp hz1
  have hz1inv : z1.uuid = Cell.na ∨ uuidSearch (pyStr z1.uuid).data = true := by
    subst hz01
    by_cases hu : uuidSearch (pyStr z0.uuid).data = true
    · rw [if_pos hu]
      exact Or.inr hu
    · rw [if_neg hu]
      exact Or.inl rfl
  have hz2u : z2.uuid = z1.uuid := by subst hz12; rfl
  have hyu : y.uuid = z2.uuid := by
    subst hzy
    by_cases hcode : productCodeSearch (pyStr z2.product_code).data = true
    · rw [if_pos hcode]
    · rw [if_neg hcode]
  rw [hyu, hz2u]
  exact hz1inv

theorem products_drop_uuid {T L : List ProductRow} (h : productsAfterDrop T = Except.ok L) :
    ∀ r ∈ L, uuidSearch (pyStr r.uuid).data = true := by
  intro r hr
  unfold productsAfterDrop at h
  obtain ⟨g, hg, h⟩ := exceptThen_ok h
  simp only [Except.ok.injEq] at h
  subst h
  obtain ⟨hrg, hna⟩ := List.mem_filter.mp hr
  have hnaB : productHasNA r = false := by
    simp only [Bool.not_eq_true'] at hna
    exact hna
  rcases productsStage1_ok_mem hg r hrg with hh | hh
  · exfalso
    apply absurd hnaB
    simp [productHasNA, hh, cellIsNA]
  · exact hh

theorem store_continent_no_ee {T L : List StoreRow} (h : clean_store_data T = Except.ok L) :
    ∀ r ∈ L, ∃ s, r.continent = Cell.str s ∧ hasEE s.data = false := by
  intro r hr
  unfold clean_store_data at h
  obtain ⟨a, ha, h⟩ := exceptThen_ok h
  obtain ⟨d, hd, h⟩ := exceptThen_ok h
  obtain ⟨e, he, h⟩ := exceptThen_ok h
  obtain ⟨x, hx, hfx⟩ := exceptMapM_ok_mem h r hr
  obtain ⟨v, hv, hrx⟩ := exceptThen_ok hfx
  simp only [Except.ok.injEq] at hrx
  obtain ⟨x1, hx1, hx1x⟩ := List.mem_map.mp hx
  obtain ⟨x0, hx0, hx01⟩ := List.mem_map.mp hx1
  obtain ⟨w, hw, hfw⟩ := exceptMapM_ok_mem he x0 hx0
  obtain ⟨vc, hvc, hx0w⟩ := exceptThen_ok hfw
  simp only [Except.ok.injEq] at hx0w
  cases hwc : w.continent
  case str s0 =>
    rw [hwc] at hvc
    simp only [strReplaceMethod, Except.ok.injEq] at hvc
    refine ⟨String.mk (pyReplace ['e', 'e'] [] s0.data), ?_, ?_⟩
    · have h1 : x0.continent = vc := by subst hx0w; rfl
      have h2 : x1.continent = asTypeString x0.continent := by subst hx01; rfl
      have h3 : x.continent = x1.continent := by subst hx1x; rfl
      have h4 : r.continent = x.continent := by subst hrx; rfl
      rw [h4, h3, h2, h1, ← hvc]
      rfl
    · exact removeEE_no_ee s0.data
  all_goals (rw [hwc] at hvc; simp [strReplaceMethod] at hvc)

/-! ## Theorems -/

/-- C3: for any input string — including the empty string, pure punctuation, the
sentinel `"NULL"`, and valid ISO dates — `safe_parse` returns either a parsed
timestamp or the missing-value marker, and never propagates an exception: the
dateutil failure is a `ValueError`, which the `except` clause catches. -/
theorem safe_parse_never_raises (s : String) :
    safe_parse (Cell.str s) = Except.ok Cell.na ∨
      ∃ d, safe_parse (Cell.str s) = Except.ok (Cell.date d) := by
  cases h : duParseCore s with
  | none => exact Or.inl (by simp [safe_parse, duParse, pyStr, h])
  | some d => exact Or.inr ⟨d, by simp [safe_parse, duParse, pyStr, h]⟩

/-- C10: `safe_parse` converts its argument with `str()` before parsing, so every
cell value — `None`, a number, the NaN float — yields a timestamp or the missing
marker without a `TypeError`; in particular `safe_parse(None)` returns the missing
marker. -/
theorem safe_parse_nonstring_total :
    (∀ x : Cell, safe_parse x = Except.ok Cell.na ∨
        ∃ d, safe_parse x = Except.ok (Cell.date d)) ∧
      safe_parse Cell.pyNone = Except.ok Cell.na ∧
      safe_parse Cell.na = Except.ok Cell.na := by
  refine ⟨fun x => ?_, by decide, by decide⟩
  cases h : duParseCore (pyStr x) with
  | none => exact Or.inl (by simp [safe_parse, duParse, h])
  | some d => exact Or.inr ⟨d, by simp [safe_parse, duParse, h]⟩

/-- C4: the weight normalizer maps `"12x100g"` to 1.2, `"1.5kg"` to 1.5, `"250ml"`
to 0.25 and `"16oz"` to exactly 16·0.0283495 = 0.453592; but on `"garbage"` the
code reaches the `'g' in entry` branch and calls `float("arbae")`, which raises an
uncaught `ValueError` instead of returning the missing marker promised by the
docstring ("If the entry does not fit into that format, the method returns np.nan
instead"). -/
theorem single_conversion_eval :
    single_conversion (Cell.str "12x100g") = Except.ok (Cell.num (pyRat 12 10)) ∧
      single_conversion (Cell.str "1.5kg") = Except.ok (Cell.num (pyRat 15 10)) ∧
      single_conversion (Cell.str "250ml") = Except.ok (Cell.num (pyRat 25 100)) ∧
      single_conversion (Cell.str "16oz") = Except.ok (Cell.num (pyRat 453592 1000000)) ∧
      single_conversion (Cell.str "garbage") = Except.error PyErr.valueError := by
  decide

/-- C1: the `removed` mapping itself behaves as described — `"Removed"` becomes
`false`, `"Still_avaliable"` becomes `true`, any other literal becomes missing and
its row is dropped — but `clean_products_data` then raises `AttributeError` instead
of returning: line 300 reads `df.removed` after line 290 renamed that column to
`still_available`, so the boolean cast never happens and no cleaned table is
returned. -/
theorem clean_products_removed_mapping_and_crash :
    productsAfterDrop prodTableA = Except.ok prodTableADropped ∧
      clean_products_data prodTableA = Except.error PyErr.attributeError := by
  decide

/-- C2: the cleaning engine is not exception-free: `clean_products_data` raises
`AttributeError` on every product table satisfying the input contract, because the
line-300 cast reads the `removed` column that line 290 renamed away. -/
theorem clean_products_always_raises :
    clean_products_data prodTableB = Except.error PyErr.attributeError := by
  decide

/-- C6 counterexample: on the spec's own end-to-end table — one `Web Portal` row
with every other field sparse, plus a twice-occurring `Kiosk` — `clean_store_data`
raises `ValueError` (stripping non-digits from the sparse staff count leaves an
empty string whose `astype('int')` cast fails), so the Web Portal row is not
retained as the claim states. -/
theorem web_portal_sparse_row_raises :
    clean_store_data storeTableA = Except.error PyErr.valueError := by
  decide

/-- C6 amended: the Web Portal frequency exemption does hold whenever the later
field rules can run — with a digit-bearing staff count the sparse Web Portal row is
retained regardless of its frequency, while the twice-occurring Kiosk rows have
their store_type set missing and are dropped. -/
theorem web_portal_frequency_exemption_concrete :
    clean_store_data storeTableB = Except.ok [storeRowWebPortalClean] := by
  decide

/-- C5 counterexample: the card cleaner is not idempotent. On fourteen Visa rows of
which two have invalid expiry dates, the first pass keeps twelve rows; re-running
the cleaner on its own output recomputes the provider frequency as 12, which is no
longer above the `> 12` support threshold, so every remaining row is dropped. -/
theorem card_cleaner_not_idempotent :
    (clean_card_data cardTableA >>= clean_card_data) ≠ clean_card_data cardTableA := by
  decide

/-- C5 amended: cleaners are not idempotent in general (see the counterexample), but
re-cleaning is the identity whenever the frequency-support rule still passes: if
`clean_card_data` returned `L` and every provider in `L` still occurs more than 12
times, then cleaning `L` again returns `L` unchanged — no further rows dropped and
no further rewrites applied. -/
theorem card_cleaner_idempotent_conditional (T L : List CardRow)
    (h1 : clean_card_data T = Except.ok L)
    (h2 : ∀ r ∈ L, 12 < (L.map (fun r' => r'.card_provider)).count r.card_provider) :
    clean_card_data L = Except.ok L :=
  clean_card_data_fixed (card_output_clean h1) h2

/-- C5 witness: thirteen valid Visa rows clean to thirteen rows whose provider
frequency 13 is still above the threshold, so a second clean is the identity. -/
theorem card_cleaner_idempotent_conditional_witness :
    clean_card_data cardTableBClean = Except.ok cardTableBClean :=
  card_cleaner_idempotent_conditional cardTableB cardTableBClean (by decide) (by decide)

/-- C8 counterexample: `"ab/cd"` has length 5 with `'/'` as third character, so the
line-101 mask keeps it even though it contains no digits; the row is retained with
that expiry, refuting the `DD/DD` (two digits / two digits) reading. -/
theorem nondigit_expiry_retained :
    clean_card_data cardTableC = Except.ok cardTableCClean ∧
      Cell.str "ab/cd" ∈ cardTableCClean.map (fun r => r.expiry_date) ∧
      isDDslashDD "ab/cd" = false :=
  ⟨by decide, by decide, by decide⟩

/-- C8 amended: every card row retained by `clean_card_data` has an expiry_date that
is a five-character string whose third character is `'/'` (the digit positions are
not checked); any value failing that shape is set to missing and its row dropped. -/
theorem retained_expiry_len5_slash (T L : List CardRow) (h : clean_card_data T = Except.ok L) :
    ∀ r ∈ L, ∃ s, r.expiry_date = Cell.str s ∧ s.data.length = 5 ∧ s.data.getD 2 ' ' = '/' :=
  fun r hr => (card_output_clean h r hr).1

/-- C8 witness: the amended theorem applied to the thirteen-row Visa table. -/
theorem retained_expiry_len5_slash_witness :
    ∃ s, cardRowGoodClean.expiry_date = Cell.str s ∧ s.data.length = 5 ∧
      s.data.getD 2 ' ' = '/' :=
  retained_expiry_len5_slash cardTableB cardTableBClean (by decide) cardRowGoodClean (by decide)

/-- C7 counterexample: the uuid rule is an unanchored alphanumeric search, not a
hexadecimal match — a row whose uuid is the all-`z` 8-4-4-4-12 grouped value is
retained at the drop stage even though it matches no hexadecimal pattern. -/
theorem nonhex_uuid_retained :
    productsAfterDrop prodTableC = Except.ok prodTableCDropped ∧
      Cell.str uuidVecZ ∈ prodTableCDropped.map (fun r => r.uuid) ∧
      isCanonicalHexUUID uuidVecZ = false :=
  ⟨by decide, by decide, by decide⟩

/-- C7 amended: every product row retained at the row-drop stage (line 298; the full
cleaner then raises before returning, see C1) has a uuid whose string form contains
an 8-4-4-4-12 grouped ALPHANUMERIC substring; the spec's hex vector is accepted and
the one-digit-short vector's row is dropped, as claimed. -/
theorem retained_uuid_contains_alnum_pattern :
    (∀ T L, productsAfterDrop T = Except.ok L →
        ∀ r ∈ L, uuidSearch (pyStr r.uuid).data = true) ∧
      uuidSearch uuidVec.data = true ∧
      productsAfterDrop prodTableD = Except.ok [prodRowCleanWith uuidVec false] :=
  ⟨fun _ _ h r hr => products_drop_uuid h r hr, by decide, by decide⟩

/-- C7 witness: the amended theorem applied to the table whose first row carries the
all-`z` uuid. -/
theorem retained_uuid_contains_alnum_pattern_witness :
    uuidSearch (pyStr (prodRowCleanWith uuidVecZ false).uuid).data = true :=
  retained_uuid_contains_alnum_pattern.1 prodTableC prodTableCDropped (by decide)
    (prodRowCleanWith uuidVecZ false) (by decide)

/-- C9: the `'ee'`-removal rewrite leaves no occurrence of `"ee"` for any input
string (left-to-right non-overlapping removal neither leaves nor creates one), and
consequently every continent value in a table returned by `clean_store_data` is a
string containing no `"ee"`. -/
theorem no_ee_after_store_clean :
    (∀ l : List Char, hasEE (pyReplace ['e', 'e'] [] l) = false) ∧
      (∀ T L, clean_store_data T = Except.ok L →
        ∀ r ∈ L, ∃ s, r.continent = Cell.str s ∧ hasEE s.data = false) :=
  ⟨fun l => removeEE_no_ee l, fun _ _ h r hr => store_continent_no_ee h r hr⟩

/-- C9 witness: the rewrite applied to `"eeAmeerica"` and the cleaned Web Portal
table. -/
theorem no_ee_after_store_clean_witness :
    hasEE (pyReplace ['e', 'e'] [] "eeAmeerica".data) = false ∧
      ∃ s, storeRowWebPortalClean.continent = Cell.str s ∧ hasEE s.data = false :=
  ⟨no_ee_after_store_clean.1 "eeAmeerica".data,
    no_ee_after_store_clean.2 storeTableB [storeRowWebPortalClean] (by decide)
      storeRowWebPortalClean (by decide)⟩

end MRDC
